import Mathlib

set_option maxHeartbeats 1000000

namespace Swagen

/-- JavaScript truthiness of an optional string: an absent value and the
empty string are falsy, every other string is truthy. -/
def truthy : Option String → Bool
  | none => false
  | some s => s != ""

structure Profile where
  generator : String
  mode : Option String
deriving Repr, DecidableEq

structure Metadata where
  title : Option String
  description : Option String
  baseUrl : Option String
deriving Repr, DecidableEq

structure Definition where
  metadata : Option Metadata
deriving Repr, DecidableEq

structure Property where
  primitive : Option String
  subType : Option String
  complex : Option String
  enum : Option String
  isArray : Bool
deriving Repr, DecidableEq

structure Parameter where
  name : String
  description : Option String
  dataType : Property
deriving Repr, DecidableEq

structure Response where
  dataType : Option Property
deriving Repr, DecidableEq

structure Operation where
  description : Option String
  description2 : Option String
  parameters : Option (List Parameter)
  responses : Option (List (String × Response))
deriving Repr, DecidableEq

structure ReturnTypeOptions where
  modelsNs : Option String
  voidType : Option String
deriving Repr, DecidableEq

structure MethodSignatureOptions extends ReturnTypeOptions where
  returnTypeTransformer : Option (String → String)

/-- The two failure kinds of type resolution. Each carries the offending
property, modelling the serialized structural dump embedded in the thrown
error message. -/
inductive TypeError where
  | unresolvable (property : Property)
  | unrecognizedPrimitive (property : Property)
deriving Repr, DecidableEq

def buildHeader (profile : Profile) (definition : Option Definition) : List String :=
  let header := [
    "//------------------------------",
    "// <auto-generated>",
    "//     Generated using the Swagen tool",
    "//     Generator: " ++ profile.generator]
  let header := if truthy profile.mode then header ++ ["//     Mode: " ++ profile.mode.getD ""] else header
  let header := header ++ ["// </auto-generated>", "//------------------------------"]
  match definition with
  | none => header
  | some d =>
    match d.metadata with
    | none => header
    | some metadata =>
      let header := if truthy metadata.title then header ++ ["// " ++ metadata.title.getD ""] else header
      let header := if truthy metadata.description then header ++ ["// " ++ metadata.description.getD ""] else header
      if truthy metadata.baseUrl then header ++ ["// Base URL: " ++ metadata.baseUrl.getD ""] else header

/-- The switch on the primitive kind. An absent or unmatched kind falls
through to the default branch, which throws; an absent or unmatched subType
falls through to the string default. -/
def getPrimitiveTypeName (property : Property) : Except TypeError String :=
  let prim := property.primitive.getD ""
  if prim == "integer" || prim == "number" then .ok "number"
  else if prim == "string" then
    let sub := property.subType.getD ""
    if sub == "date-time" then .ok "Date"
    else if sub == "uuid" then .ok "string"
    else if sub == "byte" then .ok "number"
    else .ok "string"
  else if prim == "boolean" then .ok "boolean"
  else if prim == "file" || prim == "object" then .ok "any"
  else .error (.unrecognizedPrimitive property)

def prefixNamespace (name : String) (ns : Option String) : String :=
  if truthy ns then ns.getD "" ++ "." ++ name else name

def getDataType (property : Property) (ns : Option String) : Except TypeError String :=
  let base : Except TypeError String :=
    if truthy property.primitive then
      getPrimitiveTypeName property
    else if truthy property.complex then
      .ok (prefixNamespace (property.complex.getD "") ns)
    else if truthy property.enum then
      .ok (prefixNamespace (property.enum.getD "") ns)
    else
      .error (.unresolvable property)
  base.map (fun typeName => if property.isArray then typeName ++ "[]" else typeName)

def paramDocLine (p : Parameter) : Except TypeError String := do
  let dataType ← getDataType p.dataType none
  pure (" * @param \x7b" ++ dataType ++ "\x7d " ++ p.name ++ " - " ++ p.description.getD "")

def buildOperationDocComments (operation : Operation) : Except TypeError (List String) := do
  let comments :=
    (if truthy operation.description then [" * " ++ operation.description.getD ""] else []) ++
    (if truthy operation.description2 then [" * " ++ operation.description2.getD ""] else [])
  let describedParams := (operation.parameters.getD []).filter (fun p => truthy p.description)
  let paramComments ← describedParams.mapM paramDocLine
  let comments := comments ++ paramComments
  if comments.length > 0 then
    pure (["/**"] ++ comments ++ [" */"])
  else
    pure []

/-- The fallback spelling: options.voidType when truthy, the literal void
otherwise. -/
def orVoid (voidType : Option String) : String :=
  if truthy voidType then voidType.getD "" else "void"

/-- Decimal digit value of a character, none for a non-digit. -/
def digitVal (c : Char) : Option Nat :=
  let n := c.toNat
  if 48 ≤ n && n ≤ 57 then some (n - 48) else none

/-- Value of a nonempty all-digit character sequence, none otherwise. -/
def decimalNat (ds : List Char) : Option Nat :=
  match ds with
  | [] => none
  | _ => ds.foldl (fun acc c => acc.bind (fun n => (digitVal c).map (fun d => n * 10 + d))) (some 0)

/-- Models the JavaScript numeric conversion applied to a status key,
restricted to optionally signed decimal integer numerals; the empty string
converts to 0 and any other key converts to NaN, modelled as none. -/
def jsToNumber (s : String) : Option Int :=
  match s.data with
  | [] => some 0
  | '-' :: ds => (decimalNat ds).map (fun n => -(n : Int))
  | '+' :: ds => (decimalNat ds).map (fun n => (n : Int))
  | ds => (decimalNat ds).map (fun n => (n : Int))

/-- Numeric conversion of a status key followed by the range test. A key
whose conversion is NaN fails both comparisons. -/
def statusInSuccessRange (statusKey : String) : Bool :=
  match jsToNumber statusKey with
  | some statusCode => decide (200 ≤ statusCode) && decide (statusCode < 300)
  | none => false

def scanResponses (responses : List (String × Response)) (options : ReturnTypeOptions) : Except TypeError String :=
  match responses with
  | [] => .ok (orVoid options.voidType)
  | (statusKey, response) :: rest =>
    if statusInSuccessRange statusKey then
      match response.dataType with
      | some dataType => getDataType dataType options.modelsNs
      | none => scanResponses rest options
    else
      scanResponses rest options

def getReturnType (operation : Operation) (options : ReturnTypeOptions) : Except TypeError String :=
  match operation.responses with
  | none => .ok (orVoid options.voidType)
  | some responses => scanResponses responses options

def buildParameters (parameters : List Parameter) (options : MethodSignatureOptions) : Except TypeError String :=
  parameters.foldlM (fun accumulate parameter => do
    let accumulate := if accumulate != "" then accumulate ++ ", " else accumulate
    let dataType ← getDataType parameter.dataType options.modelsNs
    pure (accumulate ++ parameter.name ++ ": " ++ dataType)) ""

def getMethodSignature (operationName : String) (operation : Operation) (options : MethodSignatureOptions) : Except TypeError String := do
  let parameters ← buildParameters (operation.parameters.getD []) options
  let returnTypeBase ← getReturnType operation options.toReturnTypeOptions
  let returnType :=
    match options.returnTypeTransformer with
    | some transformer => transformer returnTypeBase
    | none => returnTypeBase
  pure (operationName ++ "(" ++ parameters ++ "): " ++ returnType)

/-- Membership of the primitive kind in the recognized enumeration, under
JavaScript truthiness (an absent kind yields the empty string, which is not
recognized). -/
def primitiveRecognized (p : Property) : Bool :=
  let prim := p.primitive.getD ""
  prim == "integer" || prim == "number" || prim == "string" ||
    prim == "boolean" || prim == "file" || prim == "object"

lemma getPrimitiveTypeName_err (p : Property) (h : primitiveRecognized p = false) :
    getPrimitiveTypeName p = .error (.unrecognizedPrimitive p) := by
  unfold primitiveRecognized at h
  simp only [Bool.or_eq_false_iff] at h
  obtain ⟨⟨⟨⟨⟨h1, h2⟩, h3⟩, h4⟩, h5⟩, h6⟩ := h
  simp [getPrimitiveTypeName, h1, h2, h3, h4, h5, h6]

lemma getPrimitiveTypeName_ok (p : Property) (h : primitiveRecognized p = true) :
    ∃ t, getPrimitiveTypeName p = .ok t := by
  unfold primitiveRecognized at h
  simp only [Bool.or_eq_true, beq_iff_eq] at h
  rcases h with ((((h | h) | h) | h) | h) | h
  · exact ⟨"number", by simp [getPrimitiveTypeName, h]⟩
  · exact ⟨"number", by simp [getPrimitiveTypeName, h]⟩
  · simp only [getPrimitiveTypeName, h]
    norm_num
    split_ifs <;> exact ⟨_, rfl⟩
  · exact ⟨"boolean", by simp [getPrimitiveTypeName, h]⟩
  · exact ⟨"any", by simp [getPrimitiveTypeName, h]⟩
  · exact ⟨"any", by simp [getPrimitiveTypeName, h]⟩

/-- C2: for every Property with the primitive kind set, getDataType resolves
integer and number to the numeric type, string with subType date-time to the
date type, string with subType uuid or no subType to the string type, string
with subType byte to the numeric type, boolean to the boolean type, and file
or object to the any type, with the array suffix exactly when isArray holds. -/
theorem getDataType_primitive_mapping (p : Property) (ns : Option String) :
    (p.primitive = some "integer" ∨ p.primitive = some "number" →
      getDataType p ns = .ok (if p.isArray then "number[]" else "number")) ∧
    (p.primitive = some "string" → p.subType = some "date-time" →
      getDataType p ns = .ok (if p.isArray then "Date[]" else "Date")) ∧
    (p.primitive = some "string" → (p.subType = some "uuid" ∨ p.subType = none) →
      getDataType p ns = .ok (if p.isArray then "string[]" else "string")) ∧
    (p.primitive = some "string" → p.subType = some "byte" →
      getDataType p ns = .ok (if p.isArray then "number[]" else "number")) ∧
    (p.primitive = some "boolean" →
      getDataType p ns = .ok (if p.isArray then "boolean[]" else "boolean")) ∧
    (p.primitive = some "file" ∨ p.primitive = some "object" →
      getDataType p ns = .ok (if p.isArray then "any[]" else "any")) := by
  refine ⟨?_, ?_, ?_, ?_, ?_, ?_⟩
  · rintro (h | h) <;> cases hb : p.isArray <;>
      simp [getDataType, getPrimitiveTypeName, truthy, h, hb, Except.map]
  · rintro h h2
    cases hb : p.isArray <;>
      simp [getDataType, getPrimitiveTypeName, truthy, h, h2, hb, Except.map]
  · rintro h (h2 | h2) <;> cases hb : p.isArray <;>
      simp [getDataType, getPrimitiveTypeName, truthy, h, h2, hb, Except.map]
  · rintro h h2
    cases hb : p.isArray <;>
      simp [getDataType, getPrimitiveTypeName, truthy, h, h2, hb, Except.map]
  · rintro h
    cases hb : p.isArray <;>
      simp [getDataType, getPrimitiveTypeName, truthy, h, hb, Except.map]
  · rintro (h | h) <;> cases hb : p.isArray <;>
      simp [getDataType, getPrimitiveTypeName, truthy, h, hb, Except.map]

/-- Witness for C2 at concrete inputs. -/
theorem getDataType_primitive_mapping_witness :
    getDataType ⟨some "integer", none, none, none, false⟩ none = .ok "number" ∧
    getDataType ⟨some "string", some "date-time", none, none, false⟩ none = .ok "Date" ∧
    getDataType ⟨some "string", some "byte", none, none, true⟩ none = .ok "number[]" :=
  ⟨(getDataType_primitive_mapping ⟨some "integer", none, none, none, false⟩ none).1 (Or.inl rfl),
   (getDataType_primitive_mapping ⟨some "string", some "date-time", none, none, false⟩ none).2.1 rfl rfl,
   (getDataType_primitive_mapping ⟨some "string", some "byte", none, none, true⟩ none).2.2.2.1 rfl rfl⟩

/-- C3 counterexample: on a profile with only the generator present and a
definition with no metadata, buildHeader does not produce 5 lines. -/
theorem buildHeader_five_line_claim_refuted :
    (buildHeader ⟨"X", none⟩ (some ⟨none⟩)).length ≠ 5 := by decide

/-- C3 amended: buildHeader on a profile whose only present field is the
generator and a definition without metadata omits the mode line and all
metadata lines and returns exactly 6 lines: border, auto-generated open
marker, the fixed tool line, the generator line, auto-generated close
marker, border. -/
theorem buildHeader_minimal_profile :
    buildHeader ⟨"X", none⟩ (some ⟨none⟩) =
      ["//------------------------------",
       "// <auto-generated>",
       "//     Generated using the Swagen tool",
       "//     Generator: X",
       "// </auto-generated>",
       "//------------------------------"] := rfl

/-- C5: when several kind fields are set, getDataType resolves through the
primitive branch if the primitive kind is truthy, else through the complex
branch if the complex kind is truthy, else through the enum branch. -/
theorem getDataType_kind_precedence (p : Property) (ns : Option String) :
    (truthy p.primitive = true →
      getDataType p ns = (getPrimitiveTypeName p).map (fun t => if p.isArray then t ++ "[]" else t)) ∧
    (truthy p.primitive = false → truthy p.complex = true →
      getDataType p ns = .ok (if p.isArray then prefixNamespace (p.complex.getD "") ns ++ "[]" else prefixNamespace (p.complex.getD "") ns)) ∧
    (truthy p.primitive = false → truthy p.complex = false → truthy p.enum = true →
      getDataType p ns = .ok (if p.isArray then prefixNamespace (p.enum.getD "") ns ++ "[]" else prefixNamespace (p.enum.getD "") ns)) := by
  refine ⟨?_, ?_, ?_⟩
  · intro h; simp [getDataType, h]
  · intro h1 h2; simp [getDataType, h1, h2, Except.map]
  · intro h1 h2 h3; simp [getDataType, h1, h2, h3, Except.map]

/-- Witness for C5 on properties that set several kind fields at once. -/
theorem getDataType_kind_precedence_witness :
    getDataType ⟨some "integer", none, some "User", some "Color", false⟩ none = .ok "number" ∧
    getDataType ⟨none, none, some "User", some "Color", false⟩ (some "Models") = .ok "Models.User" ∧
    getDataType ⟨none, none, none, some "Color", false⟩ (some "Models") = .ok "Models.Color" :=
  ⟨(getDataType_kind_precedence ⟨some "integer", none, some "User", some "Color", false⟩ none).1 rfl,
   (getDataType_kind_precedence ⟨none, none, some "User", some "Color", false⟩ (some "Models")).2.1 rfl rfl,
   (getDataType_kind_precedence ⟨none, none, none, some "Color", false⟩ (some "Models")).2.2 rfl rfl rfl⟩

/-- C6: getDataType fails exactly when no kind field is truthy, with the
unresolvable error carrying the property, or when the primitive kind is
truthy but outside the recognized enumeration, with the unrecognized
primitive error carrying the property; in all other cases it succeeds. -/
theorem getDataType_error_conditions (p : Property) (ns : Option String) :
    ((∃ e, getDataType p ns = .error e) ↔
      ((truthy p.primitive = false ∧ truthy p.complex = false ∧ truthy p.enum = false) ∨
       (truthy p.primitive = true ∧ primitiveRecognized p = false))) ∧
    (truthy p.primitive = false → truthy p.complex = false → truthy p.enum = false →
      getDataType p ns = .error (.unresolvable p)) ∧
    (truthy p.primitive = true → primitiveRecognized p = false →
      getDataType p ns = .error (.unrecognizedPrimitive p)) := by
  have herr : truthy p.primitive = false → truthy p.complex = false → truthy p.enum = false →
      getDataType p ns = .error (.unresolvable p) := by
    intro h1 h2 h3; simp [getDataType, h1, h2, h3, Except.map]
  have herr2 : truthy p.primitive = true → primitiveRecognized p = false →
      getDataType p ns = .error (.unrecognizedPrimitive p) := by
    intro h1 h2; simp [getDataType, h1, getPrimitiveTypeName_err p h2, Except.map]
  refine ⟨⟨?_, ?_⟩, herr, herr2⟩
  · rintro ⟨e, he⟩
    by_cases h1 : truthy p.primitive = true
    · by_cases h2 : primitiveRecognized p = true
      · exfalso
        obtain ⟨t, ht⟩ := getPrimitiveTypeName_ok p h2
        simp [getDataType, h1, ht, Except.map] at he
      · exact Or.inr ⟨h1, by simpa using h2⟩
    · simp only [Bool.not_eq_true] at h1
      by_cases h2 : truthy p.complex = true
      · exfalso; simp [getDataType, h1, h2, Except.map] at he
      · simp only [Bool.not_eq_true] at h2
        by_cases h3 : truthy p.enum = true
        · exfalso; simp [getDataType, h1, h2, h3, Except.map] at he
        · simp only [Bool.not_eq_true] at h3
          exact Or.inl ⟨h1, h2, h3⟩
  · rintro (⟨h1, h2, h3⟩ | ⟨h1, h2⟩)
    · exact ⟨_, herr h1 h2 h3⟩
    · exact ⟨_, herr2 h1 h2⟩

/-- Witness for C6: a property with no kind set fails as unresolvable, and a
property with an unrecognized primitive kind fails as unrecognized. -/
theorem getDataType_error_conditions_witness :
    getDataType ⟨none, none, none, none, false⟩ none =
      .error (.unresolvable ⟨none, none, none, none, false⟩) ∧
    getDataType ⟨some "decimal", none, none, none, false⟩ none =
      .error (.unrecognizedPrimitive ⟨some "decimal", none, none, none, false⟩) :=
  ⟨(getDataType_error_conditions ⟨none, none, none, none, false⟩ none).2.1 rfl rfl rfl,
   (getDataType_error_conditions ⟨some "decimal", none, none, none, false⟩ none).2.2 rfl (by decide)⟩

def resolveBase (p : Property) (ns : Option String) : Except TypeError String :=
  if truthy p.primitive then getPrimitiveTypeName p
  else if truthy p.complex then .ok (prefixNamespace (p.complex.getD "") ns)
  else if truthy p.enum then .ok (prefixNamespace (p.enum.getD "") ns)
  else .error (.unresolvable p)

lemma getDataType_as_base (p : Property) (ns : Option String) :
    getDataType p ns = (resolveBase p ns).map (fun t => if p.isArray then t ++ "[]" else t) := rfl

lemma getPrimitiveTypeName_mk_isArray (p : Property) (b : Bool) (t : String) :
    getPrimitiveTypeName { p with isArray := b } = .ok t ↔ getPrimitiveTypeName p = .ok t := by
  unfold getPrimitiveTypeName
  dsimp only
  split_ifs <;> simp

lemma resolveBase_mk_isArray (p : Property) (b : Bool) (ns : Option String) (t : String) :
    resolveBase { p with isArray := b } ns = .ok t ↔ resolveBase p ns = .ok t := by
  unfold resolveBase
  dsimp only
  split_ifs with h1 h2 h3
  · exact getPrimitiveTypeName_mk_isArray p b t
  · exact Iff.rfl
  · exact Iff.rfl
  · simp

/-- C4: resolving a property with isArray true yields the isArray-false
resolution with the array suffix appended (and fails exactly when that
resolution fails); the namespace is ignored by primitive resolution, and for
complex and enum kinds the array suffix is appended outside the namespace
prefix. -/
theorem getDataType_array_composability (p : Property) (ns : Option String) :
    (∀ t, getDataType { p with isArray := false } ns = .ok t →
      getDataType { p with isArray := true } ns = .ok (t ++ "[]")) ∧
    (∀ e, getDataType { p with isArray := false } ns = .error e →
      ∃ e2, getDataType { p with isArray := true } ns = .error e2) ∧
    (truthy p.primitive = true → getDataType p ns = getDataType p none) ∧
    (truthy p.primitive = false → truthy p.complex = true →
      getDataType p ns = .ok (if p.isArray then prefixNamespace (p.complex.getD "") ns ++ "[]" else prefixNamespace (p.complex.getD "") ns)) ∧
    (truthy p.primitive = false → truthy p.complex = false → truthy p.enum = true →
      getDataType p ns = .ok (if p.isArray then prefixNamespace (p.enum.getD "") ns ++ "[]" else prefixNamespace (p.enum.getD "") ns)) := by
  refine ⟨?_, ?_, ?_, ?_, ?_⟩
  · intro t h
    rw [getDataType_as_base] at h ⊢
    cases hr : resolveBase { p with isArray := false } ns with
    | ok t0 =>
      rw [hr] at h
      simp only [Except.map] at h
      simp only [Except.ok.injEq] at h
      have ht0 : t0 = t := by simpa using h
      subst ht0
      have hp : resolveBase p ns = .ok t0 := (resolveBase_mk_isArray p false ns t0).mp hr
      have htrue : resolveBase { p with isArray := true } ns = .ok t0 :=
        (resolveBase_mk_isArray p true ns t0).mpr hp
      rw [htrue]
      simp [Except.map]
    | error e =>
      rw [hr] at h
      simp [Except.map] at h
  · intro e h
    rw [getDataType_as_base] at h
    cases hr : resolveBase { p with isArray := false } ns with
    | ok t0 => rw [hr] at h; simp [Except.map] at h
    | error e0 =>
      cases hr1 : resolveBase { p with isArray := true } ns with
      | ok t1 =>
        exfalso
        have hp : resolveBase p ns = .ok t1 := (resolveBase_mk_isArray p true ns t1).mp hr1
        have : resolveBase { p with isArray := false } ns = .ok t1 :=
          (resolveBase_mk_isArray p false ns t1).mpr hp
        rw [hr] at this
        exact Except.noConfusion this
      | error e1 =>
        exact ⟨e1, by rw [getDataType_as_base, hr1]; simp [Except.map]⟩
  · intro h; simp [getDataType, h]
  · intro h1 h2; simp [getDataType, h1, h2, Except.map]
  · intro h1 h2 h3; simp [getDataType, h1, h2, h3, Except.map]

/-- Witness for C4: a complex array property resolves to the prefixed name
followed by the array suffix, and a primitive property ignores the
namespace. -/
theorem getDataType_array_composability_witness :
    getDataType ⟨none, none, some "User", none, true⟩ (some "Models") = .ok "Models.User[]" ∧
    getDataType ⟨some "integer", none, none, none, true⟩ (some "Models") =
      getDataType ⟨some "integer", none, none, none, true⟩ none :=
  ⟨(getDataType_array_composability ⟨none, none, some "User", none, true⟩ (some "Models")).1 "Models.User" rfl,
   (getDataType_array_composability ⟨some "integer", none, none, none, true⟩ (some "Models")).2.2.1 rfl⟩

lemma ebind_ok {α β : Type} (a : α) (f : α → Except TypeError β) :
    (Except.ok a >>= f) = f a := rfl

lemma ebind_err {α β : Type} (e : TypeError) (f : α → Except TypeError β) :
    ((Except.error e : Except TypeError α) >>= f) = Except.error e := rfl

/-- The description lines that precede the parameter lines in a doc comment
block. -/
def headComments (operation : Operation) : List String :=
  (if truthy operation.description then [" * " ++ operation.description.getD ""] else []) ++
  (if truthy operation.description2 then [" * " ++ operation.description2.getD ""] else [])

lemma buildOperationDocComments_eq (operation : Operation) :
    buildOperationDocComments operation =
      (((operation.parameters.getD []).filter (fun p => truthy p.description)).mapM paramDocLine >>=
        (fun paramComments =>
          let comments := headComments operation ++ paramComments
          if comments.length > 0 then .ok (["/**"] ++ comments ++ [" */"]) else .ok [])) := rfl

lemma mapM_paramDocLine_length :
    ∀ (l : List Parameter) (pcs : List String), l.mapM paramDocLine = .ok pcs → pcs.length = l.length := by
  intro l
  induction l with
  | nil =>
    intro pcs h
    have h0 : (Except.ok [] : Except TypeError (List String)) = .ok pcs := h
    cases h0
    rfl
  | cons p rest ih =>
    intro pcs h
    rw [List.mapM_cons] at h
    cases hf : paramDocLine p with
    | error e => rw [hf, ebind_err] at h; exact Except.noConfusion h
    | ok b =>
      rw [hf, ebind_ok] at h
      cases hr : rest.mapM paramDocLine with
      | error e => rw [hr, ebind_err] at h; exact Except.noConfusion h
      | ok bs =>
        rw [hr, ebind_ok] at h
        have h0 : (Except.ok (b :: bs) : Except TypeError (List String)) = .ok pcs := h
        cases h0
        simp [ih bs hr]

lemma mapM_paramDocLine_ok (l : List Parameter)
    (h : ∀ p ∈ l, ∃ t, getDataType p.dataType none = .ok t) :
    ∃ pcs, l.mapM paramDocLine = .ok pcs := by
  induction l with
  | nil => exact ⟨[], rfl⟩
  | cons p rest ih =>
    obtain ⟨t, ht⟩ := h p (by simp)
    obtain ⟨pcs, hpcs⟩ := ih (fun q hq => h q (by simp [hq]))
    have hline : paramDocLine p = .ok (" * @param \x7b" ++ t ++ "\x7d " ++ p.name ++ " - " ++ p.description.getD "") := by
      unfold paramDocLine
      rw [ht, ebind_ok]
      rfl
    refine ⟨(" * @param \x7b" ++ t ++ "\x7d " ++ p.name ++ " - " ++ p.description.getD "") :: pcs, ?_⟩
    rw [List.mapM_cons, hline, ebind_ok, hpcs, ebind_ok]
    rfl

/-- C7: buildOperationDocComments wraps its output in block comment open and
close lines exactly when at least one content line was produced; with no
description, no description2 and no described parameter it returns the empty
sequence, and with only the description set it returns exactly 3 lines. -/
theorem buildOperationDocComments_wrapping (operation : Operation) :
    (truthy operation.description = false → truthy operation.description2 = false →
      (∀ p ∈ operation.parameters.getD [], truthy p.description = false) →
      buildOperationDocComments operation = .ok []) ∧
    (truthy operation.description = true → truthy operation.description2 = false →
      (∀ p ∈ operation.parameters.getD [], truthy p.description = false) →
      buildOperationDocComments operation = .ok ["/**", " * " ++ operation.description.getD "", " */"]) ∧
    (∀ lines, buildOperationDocComments operation = .ok lines →
      ((lines = [] ↔ (truthy operation.description = false ∧ truthy operation.description2 = false ∧
        ∀ p ∈ operation.parameters.getD [], truthy p.description = false)) ∧
      (lines ≠ [] → ∃ body, body ≠ [] ∧ lines = "/**" :: (body ++ [" */"])))) := by
  have hfilter : ∀ (hp : ∀ p ∈ operation.parameters.getD [], truthy p.description = false),
      (operation.parameters.getD []).filter (fun p => truthy p.description) = [] := by
    intro hp
    rw [List.filter_eq_nil_iff]
    intro a ha
    simp [hp a ha]
  refine ⟨?_, ?_, ?_⟩
  · intro h1 h2 h3
    rw [buildOperationDocComments_eq, hfilter h3]
    rw [show (([] : List Parameter).mapM paramDocLine : Except TypeError (List String)) = .ok [] from rfl]
    rw [ebind_ok]
    simp [headComments, h1, h2]
  · intro h1 h2 h3
    rw [buildOperationDocComments_eq, hfilter h3]
    rw [show (([] : List Parameter).mapM paramDocLine : Except TypeError (List String)) = .ok [] from rfl]
    rw [ebind_ok]
    simp [headComments, h1, h2]
  · intro lines hl
    rw [buildOperationDocComments_eq] at hl
    cases hm : ((operation.parameters.getD []).filter (fun p => truthy p.description)).mapM paramDocLine with
    | error e => rw [hm, ebind_err] at hl; exact Except.noConfusion hl
    | ok pcs =>
      rw [hm, ebind_ok] at hl
      dsimp only at hl
      by_cases hc : (headComments operation ++ pcs).length > 0
      · rw [if_pos hc] at hl
        have hlines : ["/**"] ++ (headComments operation ++ pcs) ++ [" */"] = lines := by
          injection hl
        constructor
        · constructor
          · intro he; rw [he] at hlines; simp at hlines
          · rintro ⟨h1, h2, h3⟩
            exfalso
            have hh : headComments operation = [] := by simp [headComments, h1, h2]
            rw [hfilter h3] at hm
            have hm0 : (Except.ok [] : Except TypeError (List String)) = .ok pcs := hm
            cases hm0
            rw [hh] at hc
            simp at hc
        · intro hne
          refine ⟨headComments operation ++ pcs, List.length_pos.mp hc, ?_⟩
          rw [← hlines]
          simp
      · rw [if_neg hc] at hl
        have hlines : lines = [] := by
          have h0 : (Except.ok [] : Except TypeError (List String)) = .ok lines := hl
          cases h0
          rfl
        subst hlines
        constructor
        · simp only [true_iff]
          simp only [gt_iff_lt, not_lt, Nat.le_zero, List.length_eq_zero, List.append_eq_nil] at hc
          obtain ⟨hhead, hpcs⟩ := hc
          have h12 : truthy operation.description = false ∧ truthy operation.description2 = false := by
            by_cases h1 : truthy operation.description = true
            · exfalso; simp [headComments, h1] at hhead
            · by_cases h2 : truthy operation.description2 = true
              · exfalso; simp [headComments, h2] at hhead
              · exact ⟨by simpa using h1, by simpa using h2⟩
          refine ⟨h12.1, h12.2, ?_⟩
          subst hpcs
          have hlen := mapM_paramDocLine_length _ [] hm
          have hfil : (operation.parameters.getD []).filter (fun p => truthy p.description) = [] :=
            List.length_eq_zero.mp (by simpa using hlen.symm)
          intro p hp
          have := List.filter_eq_nil_iff.mp hfil p hp
          simpa using this
        · intro hne; exact absurd rfl hne

/-- C10: buildOperationDocComments resolves only the data types of described
parameters, so it succeeds whenever every parameter with a truthy
description has a resolvable dataType, regardless of the other parameters. -/
theorem buildOperationDocComments_undescribed_params (operation : Operation)
    (h : ∀ p ∈ operation.parameters.getD [], truthy p.description = true →
      ∃ t, getDataType p.dataType none = .ok t) :
    ∃ lines, buildOperationDocComments operation = .ok lines := by
  have hm : ∃ pcs, ((operation.parameters.getD []).filter (fun p => truthy p.description)).mapM paramDocLine = .ok pcs := by
    apply mapM_paramDocLine_ok
    intro p hp
    have hmem := List.mem_filter.mp hp
    exact h p hmem.1 hmem.2
  obtain ⟨pcs, hpcs⟩ := hm
  rw [buildOperationDocComments_eq, hpcs, ebind_ok]
  dsimp only
  by_cases hc : (headComments operation ++ pcs).length > 0
  · rw [if_pos hc]; exact ⟨_, rfl⟩
  · rw [if_neg hc]; exact ⟨_, rfl⟩

/-- Witness for C7: an operation with no content yields the empty sequence,
and one with only a description yields the three line block. -/
theorem buildOperationDocComments_wrapping_witness :
    buildOperationDocComments ⟨none, none, none, none⟩ = .ok [] ∧
    buildOperationDocComments ⟨some "Does things", none, none, none⟩ =
      .ok ["/**", " * Does things", " */"] :=
  ⟨(buildOperationDocComments_wrapping ⟨none, none, none, none⟩).1 rfl rfl (by simp),
   (buildOperationDocComments_wrapping ⟨some "Does things", none, none, none⟩).2.1 rfl rfl (by simp)⟩

/-- Witness for C10: the undescribed first parameter has an unresolvable
dataType, yet the call succeeds because only the described second parameter
is resolved. -/
theorem buildOperationDocComments_undescribed_params_witness :
    ∃ lines, buildOperationDocComments
      ⟨none, none, some [⟨"bad", none, ⟨none, none, none, none, false⟩⟩,
        ⟨"id", some "the id", ⟨some "integer", none, none, none, false⟩⟩], none⟩ = .ok lines :=
  buildOperationDocComments_undescribed_params _ (by
    intro p hp hd
    simp only [Option.getD_some, List.mem_cons, List.not_mem_nil, or_false] at hp
    rcases hp with rfl | rfl
    · simp [truthy] at hd
    · exact ⟨"number", rfl⟩)

/-- A response entry qualifies when its status key converts into [200, 300)
and it declares a dataType. -/
def successWithData (entry : String × Response) : Bool :=
  statusInSuccessRange entry.1 && entry.2.dataType.isSome

lemma scanResponses_skip (statusKey : String) (response : Response)
    (rest : List (String × Response)) (options : ReturnTypeOptions)
    (h : successWithData (statusKey, response) = false) :
    scanResponses ((statusKey, response) :: rest) options = scanResponses rest options := by
  unfold successWithData at h
  simp only [Bool.and_eq_false_iff] at h
  have hstep : scanResponses ((statusKey, response) :: rest) options =
      if statusInSuccessRange statusKey then
        match response.dataType with
        | some dataType => getDataType dataType options.modelsNs
        | none => scanResponses rest options
      else scanResponses rest options := rfl
  rw [hstep]
  rcases h with hk | hd
  · simp [hk]
  · have hnone : response.dataType = none := by
      cases hdt : response.dataType
      · rfl
      · exfalso; rw [hdt] at hd; simp at hd
    simp [hnone]

lemma scanResponses_none (responses : List (String × Response)) (options : ReturnTypeOptions)
    (h : ∀ x ∈ responses, successWithData x = false) :
    scanResponses responses options = .ok (orVoid options.voidType) := by
  induction responses with
  | nil => rfl
  | cons x rest ih =>
    obtain ⟨k, r⟩ := x
    rw [scanResponses_skip k r rest options (h (k, r) (by simp))]
    exact ih (fun y hy => h y (by simp [hy]))

lemma scanResponses_hit (statusKey : String) (response : Response)
    (rest : List (String × Response)) (options : ReturnTypeOptions) (dataType : Property)
    (h : successWithData (statusKey, response) = true) (hd : response.dataType = some dataType) :
    scanResponses ((statusKey, response) :: rest) options = getDataType dataType options.modelsNs := by
  unfold successWithData at h
  simp only [Bool.and_eq_true] at h
  have hstep : scanResponses ((statusKey, response) :: rest) options =
      if statusInSuccessRange statusKey then
        match response.dataType with
        | some dataType => getDataType dataType options.modelsNs
        | none => scanResponses rest options
      else scanResponses rest options := rfl
  rw [hstep]
  simp [h.1, hd]

/-- C1: getReturnType yields the void default when the operation has no
responses map or no entry qualifies, and otherwise resolves the dataType of
the first entry, in list order, whose status key converts into [200, 300)
and which declares a dataType, with the modelsNs namespace. -/
theorem getReturnType_first_success (operation : Operation) (options : ReturnTypeOptions) :
    (operation.responses = none →
      getReturnType operation options = .ok (orVoid options.voidType)) ∧
    (∀ responses, operation.responses = some responses →
      (∀ entry ∈ responses, successWithData entry = false) →
      getReturnType operation options = .ok (orVoid options.voidType)) ∧
    (∀ responses pre entry post, operation.responses = some responses →
      responses = pre ++ entry :: post →
      (∀ x ∈ pre, successWithData x = false) →
      successWithData entry = true →
      ∀ dataType, entry.2.dataType = some dataType →
      getReturnType operation options = getDataType dataType options.modelsNs) := by
  refine ⟨?_, ?_, ?_⟩
  · intro h; unfold getReturnType; rw [h]
  · intro rs h hall
    unfold getReturnType; rw [h]
    exact scanResponses_none rs options hall
  · intro rs pre entry post h heq hpre hentry dataType hdt
    have hshow : getReturnType operation options = scanResponses (pre ++ entry :: post) options := by
      unfold getReturnType; rw [h, heq]
    rw [hshow]
    clear h heq hshow
    induction pre with
    | nil =>
      obtain ⟨k, r⟩ := entry
      simpa using scanResponses_hit k r post options dataType hentry (by simpa using hdt)
    | cons x rest ih =>
      obtain ⟨k, r⟩ := x
      rw [List.cons_append, scanResponses_skip k r _ options (hpre (k, r) (by simp))]
      exact ih (fun y hy => hpre y (by simp [hy]))

/-- Witness for C1: the 404 entry is skipped and the 200 entry resolves;
a responses map without a qualifying entry and an absent responses map both
fall back to the void default. -/
theorem getReturnType_first_success_witness :
    getReturnType ⟨none, none, none,
        some [("404", ⟨none⟩), ("200", ⟨some ⟨none, none, some "User", none, false⟩⟩),
          ("201", ⟨some ⟨some "integer", none, none, none, false⟩⟩)]⟩
      ⟨some "Models", none⟩ = .ok "Models.User" ∧
    getReturnType ⟨none, none, none, some [("404", ⟨none⟩)]⟩ ⟨none, none⟩ = .ok "void" ∧
    getReturnType ⟨none, none, none, none⟩ ⟨none, some "any"⟩ = .ok "any" := by
  refine ⟨?_, ?_, ?_⟩
  · exact (getReturnType_first_success _ _).2.2 _ [("404", ⟨none⟩)]
      ("200", ⟨some ⟨none, none, some "User", none, false⟩⟩)
      [("201", ⟨some ⟨some "integer", none, none, none, false⟩⟩)] rfl rfl
      (by decide) (by decide) ⟨none, none, some "User", none, false⟩ rfl
  · exact (getReturnType_first_success _ _).2.1 _ rfl (by decide)
  · exact (getReturnType_first_success _ _).1 rfl

lemma epure_bind {α β : Type} (a : α) (f : α → Except TypeError β) :
    ((pure a : Except TypeError α) >>= f) = f a := rfl

/-- The parameter list as the spec words it: resolve each parameter in
order into a name-colon-type item. -/
def resolvedParams (parameters : List Parameter) (ns : Option String) : Except TypeError (List String) :=
  match parameters with
  | [] => .ok []
  | p :: rest => do
    let t ← getDataType p.dataType ns
    let ts ← resolvedParams rest ns
    pure ((p.name ++ ": " ++ t) :: ts)

/-- Join items with a comma separator, no trailing separator; the empty
list yields the empty string. -/
def joinComma : List String → String
  | [] => ""
  | t :: rest => rest.foldl (fun a b => a ++ ", " ++ b) t

/-- The signature composition as the spec words it, to be compared with
getMethodSignature. -/
def specMethodSignature (operationName : String) (operation : Operation)
    (options : MethodSignatureOptions) : Except TypeError String := do
  let ts ← resolvedParams (operation.parameters.getD []) options.modelsNs
  let returnTypeBase ← getReturnType operation options.toReturnTypeOptions
  let returnType :=
    match options.returnTypeTransformer with
    | some transformer => transformer returnTypeBase
    | none => returnTypeBase
  pure (operationName ++ "(" ++ joinComma ts ++ "): " ++ returnType)

lemma str_ne_empty (s : String) (h : 0 < s.length) : s ≠ "" := by
  intro he
  rw [he] at h
  exact absurd h (by decide)

lemma buildParameters_aux (options : MethodSignatureOptions) :
    ∀ (l : List Parameter) (acc : String), acc ≠ "" →
      l.foldlM (fun accumulate parameter => do
        let dataType ← getDataType parameter.dataType options.modelsNs
        pure ((if accumulate != "" then accumulate ++ ", " else accumulate) ++
          parameter.name ++ ": " ++ dataType)) acc
      = (resolvedParams l options.modelsNs).map
          (fun ts => ts.foldl (fun a b => a ++ ", " ++ b) acc) := by
  intro l
  induction l with
  | nil =>
    intro acc hacc
    rfl
  | cons p rest ih =>
    intro acc hacc
    have hne : (acc != "") = true := bne_iff_ne.mpr hacc
    rw [List.foldlM_cons]
    rw [if_pos hne]
    cases hdt : getDataType p.dataType options.modelsNs with
    | error e =>
      have hl : resolvedParams (p :: rest) options.modelsNs = .error e := by
        unfold resolvedParams
        rw [hdt, ebind_err]
      rw [hl]
      rfl
    | ok t =>
      have hacc2 : acc ++ ", " ++ p.name ++ ": " ++ t ≠ "" := by
        apply str_ne_empty
        simp only [String.length_append]
        have h2 : (": " : String).length = 2 := rfl
        omega
      rw [ebind_ok]
      rw [epure_bind]
      rw [ih _ hacc2]
      cases hrest : resolvedParams rest options.modelsNs with
      | error e =>
        have hl : resolvedParams (p :: rest) options.modelsNs = .error e := by
          unfold resolvedParams
          rw [hdt, ebind_ok, hrest, ebind_err]
        rw [hl]
        rfl
      | ok ts =>
        have hl : resolvedParams (p :: rest) options.modelsNs = .ok ((p.name ++ ": " ++ t) :: ts) := by
          unfold resolvedParams
          rw [hdt, ebind_ok, hrest, ebind_ok]
          rfl
        rw [hl]
        simp only [Except.map, List.foldl_cons, String.append_assoc]

lemma buildParameters_eq (l : List Parameter) (options : MethodSignatureOptions) :
    buildParameters l options = (resolvedParams l options.modelsNs).map joinComma := by
  cases l with
  | nil => rfl
  | cons p rest =>
    unfold buildParameters
    rw [List.foldlM_cons]
    dsimp only
    cases hdt : getDataType p.dataType options.modelsNs with
    | error e =>
      have hl : resolvedParams (p :: rest) options.modelsNs = .error e := by
        unfold resolvedParams
        rw [hdt, ebind_err]
      rw [hl]
      rfl
    | ok t =>
      have hitem : p.name ++ ": " ++ t ≠ "" := by
        apply str_ne_empty
        simp only [String.length_append]
        have h2 : (": " : String).length = 2 := rfl
        omega
      rw [ebind_ok]
      rw [epure_bind]
      have hif : (if (("" : String) != "") = true then ("" : String) ++ ", " else "") = "" := rfl
      rw [hif, String.empty_append]
      rw [buildParameters_aux options rest _ hitem]
      cases hrest : resolvedParams rest options.modelsNs with
      | error e =>
        have hl : resolvedParams (p :: rest) options.modelsNs = .error e := by
          unfold resolvedParams
          rw [hdt, ebind_ok, hrest, ebind_err]
        rw [hl]
        rfl
      | ok ts =>
        have hl : resolvedParams (p :: rest) options.modelsNs = .ok ((p.name ++ ": " ++ t) :: ts) := by
          unfold resolvedParams
          rw [hdt, ebind_ok, hrest, ebind_ok]
          rfl
        rw [hl]
        rfl

/-- C8: getMethodSignature composes name, parenthesized parameter list and
return type, where the parameter list joins the in-order resolved
name-colon-type items with a comma separator, with no trailing separator and
an empty section for an empty list; in particular the getUser example
produces the expected signature. -/
theorem getMethodSignature_composition :
    (∀ (operationName : String) (operation : Operation) (options : MethodSignatureOptions),
      getMethodSignature operationName operation options =
        specMethodSignature operationName operation options) ∧
    getMethodSignature "getUser"
      ⟨none, none, some [⟨"id", none, ⟨some "integer", none, none, none, false⟩⟩],
        some [("200", ⟨some ⟨none, none, some "User", none, false⟩⟩)]⟩
      ⟨⟨some "Models", none⟩, none⟩ = .ok "getUser(id: number): Models.User" := by
  constructor
  · intro operationName operation options
    unfold getMethodSignature specMethodSignature
    rw [buildParameters_eq]
    cases hr : resolvedParams (operation.parameters.getD []) options.modelsNs with
    | error e => rfl
    | ok ts => rfl
  · rfl

lemma buildParameters_modelsNs (l : List Parameter) (o1 o2 : MethodSignatureOptions)
    (h : o1.modelsNs = o2.modelsNs) : buildParameters l o1 = buildParameters l o2 := by
  unfold buildParameters
  simp only [h]

/-- C9: supplying a returnTypeTransformer changes only the return type
segment after the closing parenthesis; the operation name and the whole
parameter segment stay identical, and the transformer is applied to the
resolved return type only. -/
theorem getMethodSignature_transformer_frame (operationName : String) (operation : Operation)
    (options : MethodSignatureOptions) (transformer : String → String) :
    ∀ parameters returnType,
      buildParameters (operation.parameters.getD []) options = .ok parameters →
      getReturnType operation options.toReturnTypeOptions = .ok returnType →
      (getMethodSignature operationName operation { options with returnTypeTransformer := none } =
        .ok (operationName ++ "(" ++ parameters ++ "): " ++ returnType) ∧
      getMethodSignature operationName operation { options with returnTypeTransformer := some transformer } =
        .ok (operationName ++ "(" ++ parameters ++ "): " ++ transformer returnType)) := by
  intro ps rt hp hrt
  have hp1 : buildParameters (operation.parameters.getD [])
      { options with returnTypeTransformer := none } = .ok ps :=
    (buildParameters_modelsNs (operation.parameters.getD [])
      { options with returnTypeTransformer := none } options rfl).trans hp
  have hp2 : buildParameters (operation.parameters.getD [])
      { options with returnTypeTransformer := some transformer } = .ok ps :=
    (buildParameters_modelsNs (operation.parameters.getD [])
      { options with returnTypeTransformer := some transformer } options rfl).trans hp
  constructor
  · unfold getMethodSignature
    rw [hp1, ebind_ok, hrt, ebind_ok]
    rfl
  · unfold getMethodSignature
    rw [hp2, ebind_ok, hrt, ebind_ok]
    rfl

/-- Witness for C9: wrapping the return type in a container notation
rewrites only the segment after the closing parenthesis. -/
theorem getMethodSignature_transformer_frame_witness :
    getMethodSignature "getUser"
      ⟨none, none, some [⟨"id", none, ⟨some "integer", none, none, none, false⟩⟩],
        some [("200", ⟨some ⟨none, none, some "User", none, false⟩⟩)]⟩
      ⟨⟨some "Models", none⟩, none⟩ = .ok "getUser(id: number): Models.User" ∧
    getMethodSignature "getUser"
      ⟨none, none, some [⟨"id", none, ⟨some "integer", none, none, none, false⟩⟩],
        some [("200", ⟨some ⟨none, none, some "User", none, false⟩⟩)]⟩
      ⟨⟨some "Models", none⟩, some (fun t => "Promise<" ++ t ++ ">")⟩ =
      .ok "getUser(id: number): Promise<Models.User>" := by
  have h := getMethodSignature_transformer_frame "getUser"
    ⟨none, none, some [⟨"id", none, ⟨some "integer", none, none, none, false⟩⟩],
      some [("200", ⟨some ⟨none, none, some "User", none, false⟩⟩)]⟩
    ⟨⟨some "Models", none⟩, none⟩ (fun t => "Promise<" ++ t ++ ">")
    "id: number" "Models.User" rfl rfl
  exact ⟨h.1, h.2⟩

end Swagen
